import Mathlib

/-!
# Verification of the t031a5-os voice-interaction core

Shallow embedding of the repository's audio-capture / endpointing loop
(`src/inputs/chatgpt_asr.py` and `src/inputs/googleasr.py`, `record_audio`),
the turn orchestration of `src/core/cortex.py` (`process_speech_input`,
`start_interaction`, `stop_interaction`), the batch transcription wrapper
(`transcribe_audio` / `transcribe_speech`), sample-rate selection, and the
movement dispatcher (`src/movements/unitree_g1.py`).

Audio frames are modelled by their voice-activity classification (`Bool`:
`true` = the VAD classified the frame as speech); the byte content of a frame
is irrelevant to every property treated here, and a buffered frame is
identified by its read index so that buffer membership is observable.
-/

namespace T031a5

/-! ## Recording loop (`record_audio` in chatgpt_asr.py / googleasr.py)

The Python loop is

```
while not should_stop_recording:
    frame = stream.read(...)
    if should_stop_recording: break
    is_speech = vad.is_speech(frame, sample_rate)
    if is_speech: frames.append(frame); silence_frames = 0
    elif frames: frames.append(frame); silence_frames += 1
                 if silence_frames > silence_threshold: break
```

The externally set cancellation flag is modelled by `cancelAt : Option Nat`:
`some j` means the flag turns true at the moment `j` frame reads have
completed (so `j = 0` models a flag that is already true when the loop
starts).  `flagObserved c t` is the value the loop sees at a check point
where `t` reads have completed: the `while` test before reading frame `i`
sees `t = i`, the check directly after that read sees `t = i + 1`. -/

def flagObserved : Option Nat → Nat → Bool
  | none, _ => false
  | some j, t => decide (j ≤ t)

/-- How one pass of `record_audio`'s while-loop ends. -/
inductive RecEnd where
  | cancelled  : RecEnd   -- exited because `should_stop_recording` was observed
  | silenceEnd : RecEnd   -- exited because `silence_frames > silence_threshold`
  | streamEnd  : RecEnd   -- the (finite, modelled) frame stream was exhausted
deriving DecidableEq, Repr

/-- The while-loop of `record_audio`, recursing over the classifications of the
frames the stream would deliver.  `idx` counts completed reads, `buf` holds the
read indices of the buffered (`frames.append`ed) frames, `sil` is
`silence_frames`.  Returns the final buffer, the total number of frames read,
and how the loop ended. -/
def recordGo (thr : Nat) (cancelAt : Option Nat) :
    List Bool → Nat → List Nat → Nat → List Nat × Nat × RecEnd
  | [], idx, buf, _ => (buf, idx, RecEnd.streamEnd)
  | sp :: rest, idx, buf, sil =>
    if flagObserved cancelAt idx then (buf, idx, RecEnd.cancelled)
    else if flagObserved cancelAt (idx + 1) then (buf, idx + 1, RecEnd.cancelled)
    else if sp then recordGo thr cancelAt rest (idx + 1) (buf ++ [idx]) 0
    else if buf.isEmpty then recordGo thr cancelAt rest (idx + 1) buf sil
    else if sil + 1 > thr then (buf ++ [idx], idx + 1, RecEnd.silenceEnd)
    else recordGo thr cancelAt rest (idx + 1) (buf ++ [idx]) (sil + 1)

/-- `record_audio` of `src/inputs/chatgpt_asr.py` (lines 143-184): after the
loop, `if not frames: return None, None` else `return b''.join(frames), rate`.
The returned audio is `none` exactly when the buffer is empty — the loop-end
reason is NOT consulted.  Also reports frames read and the end reason. -/
def record_audio_chatgpt (thr : Nat) (cancelAt : Option Nat) (input : List Bool) :
    Option (List Nat) × Nat × RecEnd :=
  match recordGo thr cancelAt input 0 [] 0 with
  | (buf, n, e) => (if buf.isEmpty then none else some buf, n, e)

/-- `record_audio` of `src/inputs/googleasr.py` (lines 60-135): after the loop,
`if not frames or should_stop_recording: return None`, so a run cancelled by
the flag discards the partial buffer. -/
def record_audio_google (thr : Nat) (cancelAt : Option Nat) (input : List Bool) :
    Option (List Nat) × Nat × RecEnd :=
  match recordGo thr cancelAt input 0 [] 0 with
  | (buf, n, e) =>
    (if buf.isEmpty || flagObserved cancelAt n then none else some buf, n, e)

/-! ## Silence threshold (`chatgpt_asr.py` line 125, `googleasr.py` line 68)

`silence_threshold = int(silence_limit * (sample_rate / 160))`.  Python's
`/` is exact on these operands up to float rounding; all values settled here
are exactly representable, so we embed the arithmetic over `ℚ`.  Python
`int()` truncates toward zero. -/

def pyInt (q : ℚ) : ℤ := if 0 ≤ q then ⌊q⌋ else ⌈q⌉

def silence_threshold (silence_limit : ℚ) (sample_rate : Nat) : ℤ :=
  pyInt (silence_limit * ((sample_rate : ℚ) / 160))

/-! ## Sample-rate selection (`chatgpt_asr.py` lines 119-123)

`sample_rate = min(supported_rates, key=lambda x: abs(x - preferred_rate))`
when the preferred rate is unsupported; Python's `min` returns the first
element attaining the minimal key. -/

def rateDist (preferred x : Nat) : Nat := ((x : ℤ) - (preferred : ℤ)).natAbs

def minByDist (preferred : Nat) (x : Nat) (xs : List Nat) : Nat :=
  xs.foldl (fun acc y => if rateDist preferred y < rateDist preferred acc then y else acc) x

def select_rate (supported : List Nat) (preferred : Nat) : Option Nat :=
  if preferred ∈ supported then some preferred
  else
    match supported with
    | [] => none
    | x :: xs => some (minByDist preferred x xs)

/-! ## Interaction controller state (`cortex.py` lines 18-86, `chatgpt_asr.py` lines 20-26)

The mutable globals that the controller touches: `interaction_active` and
`should_exit` in cortex.py, and `should_stop_recording` in chatgpt_asr.py
(the module cortex.py imports `set_stop_recording` from). -/

structure CortexState where
  interaction_active : Bool
  should_exit : Bool
  should_stop_recording : Bool
deriving DecidableEq, Repr

def cortexInit : CortexState := ⟨false, false, false⟩

/-- `set_stop_recording` of `chatgpt_asr.py` (lines 23-26): sets the flag,
nothing ever sets it back to `False` in cortex.py or chatgpt_asr.py. -/
def cortex_set_stop_recording (s : CortexState) : CortexState :=
  { s with should_stop_recording := true }

/-- `start_interaction` of `cortex.py` (lines 40-53): refuses when already
active, else sets `interaction_active` and spawns the loop thread.  It does
not touch `should_stop_recording`. -/
def start_interaction (s : CortexState) : CortexState × String :=
  if s.interaction_active then (s, "already_running")
  else ({ s with interaction_active := true }, "started")

/-- `stop_interaction` of `cortex.py` (lines 55-86): clears
`interaction_active`, sets `should_exit`, calls `set_stop_recording`, joins
the thread, then the "Reset state" block sets `should_exit = False` (the
recording flag is left alone). -/
def stop_interaction (s : CortexState) : CortexState × String :=
  if !s.interaction_active then (s, "not_running")
  else
    let s1 := cortex_set_stop_recording
      { s with interaction_active := false, should_exit := true }
    ({ s1 with should_exit := false }, "stopped")

/-! ## Reply decoding (`cortex.py`, `process_speech_input` lines 132-182)

Values produced by `json.loads`. -/

inductive PyJson where
  | str (s : List Char)
  | num (n : ℤ)
  | dict (d : List (List Char × PyJson))
  | arr (l : List PyJson)
  | bool (b : Bool)
  | null
deriving Repr

/-- Python truthiness (only used for `if movement:`). -/
def pyTruthy : PyJson → Bool
  | PyJson.str s => !s.isEmpty
  | PyJson.num n => decide (n ≠ 0)
  | PyJson.dict d => !d.isEmpty
  | PyJson.arr l => !l.isEmpty
  | PyJson.bool b => b
  | PyJson.null => false

/-- `dict.get(key)` / `dict.get(key, default)` lookup. -/
def dictGet (d : List (List Char × PyJson)) (k : List Char) : Option PyJson :=
  match d.find? (fun e => decide (e.1 = k)) with
  | some e => some e.2
  | none => none

def backquote : Char := Char.ofNat 96

def jsonFenceOpen : List Char := [backquote, backquote, backquote, 'j', 's', 'o', 'n']

def fenceBar : List Char := [backquote, backquote, backquote]

/-- Python `str.find(sub)` restricted to what the code uses: index of the
first occurrence, `none` for Python's `-1`. -/
def findSub (needle : List Char) : List Char → Option Nat
  | [] => if needle.isEmpty then some 0 else none
  | c :: rest =>
    if needle.isPrefixOf (c :: rest) then some 0
    else (findSub needle rest).map (· + 1)

def pyWS : Char → Bool := fun c =>
  c = ' ' || c = Char.ofNat 9 || c = Char.ofNat 10 || c = Char.ofNat 13 ||
  c = Char.ofNat 11 || c = Char.ofNat 12

/-- Python `str.strip()`. -/
def pyStrip (s : List Char) : List Char :=
  ((s.dropWhile pyWS).reverse.dropWhile pyWS).reverse

/-- Lines 133-141 of `cortex.py`: the string handed to `json.loads`.  When a
fenced block opener is present, the slice between `find('` ```json `')+7` and
the next fence is stripped (slice end `-1` when no closing fence is found —
Python's `find` returning `-1` makes the slice drop the final character);
otherwise the whole reply is used, unstripped. -/
def extract_json_str (reply : List Char) : List Char :=
  match findSub jsonFenceOpen reply with
  | none => reply
  | some i =>
    let rest := reply.drop (i + 7)
    match findSub fenceBar rest with
    | some j => pyStrip (rest.take j)
    | none => pyStrip rest.dropLast

def chatKey : List Char := "chat-response".toList

def movementKey : List Char := "movement".toList

def noResponseMsg : List Char := "No response content found".toList

/-- Outcome of one turn's decode-and-act: what is handed to text-to-speech
(`none` = nothing is spoken this turn) and which movement value is executed
(`none` = the movement thread is never started). -/
structure DecodeOutcome where
  spoken : Option PyJson
  movement : Option PyJson
deriving Repr

/-- Decode section of `process_speech_input` (lines 132-182), parametric in
`json.loads` (an external library call, modelled as a partial parse
function).  `loads` failing is `json.JSONDecodeError`, caught at line 179:
nothing is spoken, no movement runs, the enclosing call returns normally.  A
successfully parsed non-dict value makes `.get` raise `AttributeError`,
caught by the outer handler at line 181 with the same observable effect. -/
def process_reply (loads : List Char → Option PyJson) (reply : List Char) :
    DecodeOutcome :=
  match loads (extract_json_str reply) with
  | none => ⟨none, none⟩
  | some (PyJson.dict d) =>
    let chat := (dictGet d chatKey).getD (PyJson.str noResponseMsg)
    let mv :=
      match dictGet d movementKey with
      | some m => if pyTruthy m then some m else none
      | none => none
    ⟨some chat, mv⟩
  | some _ => ⟨none, none⟩

/-! ## Batch transcription (`chatgpt_asr.py`, `transcribe_audio` lines 197-245,
caller filter in `transcribe_speech` lines 344-350)

`raw` is the text the Whisper call returns (`none` models a falsy `None`).
The second component records whether the contextual `gpt-4o`
`chat.completions.create` call (lines 229-235) is made — it is reached
whenever the raw transcript is truthy and `PROMPT_BASE`/`GOVERNANCE_BASE`
are configured; the transcript is stripped only after the truthiness
check at line 214. -/
def transcribe_audio (prompts : Bool) (raw : Option (List Char)) :
    Option (List Char) × Bool :=
  match raw with
  | none => (none, false)
  | some s =>
    if s.isEmpty then (none, false)
    else (some (pyStrip s), prompts)

/-- `transcribe_speech` yields the transcript only when it is truthy
(line 347 `if transcript:`); otherwise the loop retries capture. -/
def transcript_propagates (prompts : Bool) (raw : Option (List Char)) : Bool :=
  match (transcribe_audio prompts raw).1 with
  | none => false
  | some t => !t.isEmpty

/-! ## Movement dispatch (`unitree_g1.py`, `execute_movement` lines 44-70) -/

def movement_map : List (List Char × List Char) :=
  [("release_arm".toList, "release arm".toList),
   ("shake_hand".toList, "shake hand".toList),
   ("high_five".toList, "high five".toList),
   ("hug".toList, "hug".toList),
   ("high_wave".toList, "high wave".toList),
   ("clap".toList, "clap".toList),
   ("face_wave".toList, "face wave".toList),
   ("left_kiss".toList, "left kiss".toList),
   ("heart".toList, "heart".toList),
   ("right_heart".toList, "right heart".toList),
   ("hands_up".toList, "hands up".toList),
   ("x_ray".toList, "x-ray".toList),
   ("right_hand_up".toList, "right hand up".toList),
   ("reject".toList, "reject".toList),
   ("right_kiss".toList, "right kiss".toList),
   ("two_hand_kiss".toList, "two-hand kiss".toList)]

/-- `movement_name.lower().replace(" ", "_")` (line 55). -/
def normalize_movement (name : List Char) : List Char :=
  (name.map Char.toLower).map (fun c => if c = ' ' then '_' else c)

/-- `execute_movement` (lines 44-70), parametric in the hardware call
`self.arm_client.ExecuteAction` (success/failure of the actuator).
Returns `(result, hardware_called)`: an unknown normalized name returns
`False` at line 59 before any hardware interaction. -/
def execute_movement (hw : List Char → Bool) (name : List Char) : Bool × Bool :=
  match movement_map.find? (fun e => decide (e.1 = normalize_movement name)) with
  | none => (false, false)
  | some e => (hw e.2, true)

/-! ## Acting phase timing (`cortex.py`, `process_speech_input` lines 152-177)

When the decoded reply carries a truthy movement, a daemon thread running
`execute_movement` is started (`thread.start()` returns immediately) before
the main thread synthesizes (`client.text_to_speech`) and plays
(`client.play_audio`) the reply; the main thread then joins the movement
thread before returning.  Durations are abstract; the phase starts at
time 0. -/

structure ActingPhase where
  synthDur : Nat
  playDur : Nat
  movement : Option Nat
deriving Repr

/-- The movement thread, when present, starts at time 0: `thread.start()` at
line 161 precedes the synthesis call and does not wait for playback. -/
def movement_start (a : ActingPhase) : Option Nat := a.movement.map (fun _ => 0)

/-- Playback begins when synthesis ends; the movement thread runs
independently and is not waited on before playback. -/
def playback_start (a : ActingPhase) : Nat := a.synthDur

def playback_done (a : ActingPhase) : Nat := a.synthDur + a.playDur

def movement_done (a : ActingPhase) : Option Nat := a.movement.map (fun d => 0 + d)

/-- `process_speech_input` returns after playback has finished and — when a
movement thread exists — after `movement_thread.join()` (lines 176-177)
has returned, i.e. after the movement has also finished. -/
def turn_done (a : ActingPhase) : Nat :=
  match a.movement with
  | some d => max (a.synthDur + a.playDur) (0 + d)
  | none => a.synthDur + a.playDur

/-! ## Theorems -/

/-- C1 counterexample: for the reply `"hello there"` and a parse that
recovers no structured payload, `process_speech_input` does NOT degrade to
speaking the raw reply — nothing is spoken and no action is set, so the
claimed outcome `{spokenText: rawReply, action: none}` is false. -/
theorem C1_claim_cex :
    ¬ process_reply (fun _ => none) ("hello there".toList) =
      ⟨some (PyJson.str ("hello there".toList)), none⟩ := by
  intro h
  have h2 := congrArg DecodeOutcome.spoken h
  exact Option.noConfusion h2

/-- C1 (amended): whenever `json.loads` recovers no structured payload from
the extracted string, the decode failure is caught inside
`process_speech_input` (the turn is not aborted — the function returns
normally), but the raw reply is NOT spoken: nothing is handed to speech
synthesis and no movement is executed. -/
theorem C1_amended_decode_degrades (loads : List Char → Option PyJson)
    (reply : List Char) (h : loads (extract_json_str reply) = none) :
    process_reply loads reply = ⟨none, none⟩ := by
  unfold process_reply
  rw [h]

/-- C1 amended, witnessed at the spec's own example reply. -/
theorem C1_amended_witness :
    process_reply (fun _ => none) ("hello there".toList) = ⟨none, none⟩ :=
  C1_amended_decode_degrades (fun _ => none) ("hello there".toList) rfl

/-- C6: the claim (the cancellation flag is false at the start of every
interaction loop launched by `start_interaction`) is refuted by the code:
after `start_interaction; stop_interaction; start_interaction` the
`should_stop_recording` flag is still `true` — neither `start_interaction`
nor anything else in cortex.py/chatgpt_asr.py ever resets it — and a capture
loop entered with the flag already set (`cancelAt = some 0`) reads zero
frames and returns no audio, so the restarted interaction can never record.
The googleasr.py variant clears the flag at the top of `record_audio`, and
`stop_interaction`'s own "Reset state" block exists so that "a later start()
succeeds": the chatgpt_asr.py path contradicts that intent. -/
theorem C6_flag_never_reset :
    (start_interaction (stop_interaction (start_interaction cortexInit).1).1).1.should_stop_recording
      = true
    ∧ ∀ (thr : Nat) (input : List Bool),
        (record_audio_chatgpt thr (some 0) input).1 = none
        ∧ (record_audio_chatgpt thr (some 0) input).2.1 = 0 := by
  refine ⟨rfl, fun thr input => ?_⟩
  cases input with
  | nil => exact ⟨rfl, rfl⟩
  | cons b rest => exact ⟨rfl, rfl⟩

/-- C7: in the Acting phase, the movement thread (when a movement is
present) starts at time 0 and playback's start time is independent of the
movement, so neither blocks the other's start; the turn completes at the
join, no earlier than the end of playback and no earlier than the end of the
movement — exactly the max of the two completion times. -/
theorem C7_acting_join (a : ActingPhase) (d : Nat) (h : a.movement = some d) :
    movement_start a = some 0
    ∧ (∀ m', playback_start { a with movement := m' } = playback_start a)
    ∧ playback_done a ≤ turn_done a
    ∧ d ≤ turn_done a
    ∧ turn_done a = max (playback_done a) d := by
  refine ⟨?_, fun m' => rfl, ?_, ?_, ?_⟩ <;>
    simp [movement_start, playback_done, turn_done, h]

/-- C7, witnessed with a movement that outlasts playback. -/
theorem C7_acting_join_witness :
    movement_start ⟨2, 3, some 9⟩ = some 0
    ∧ (∀ m', playback_start { ActingPhase.mk 2 3 (some 9) with movement := m' }
        = playback_start ⟨2, 3, some 9⟩)
    ∧ playback_done ⟨2, 3, some 9⟩ ≤ turn_done ⟨2, 3, some 9⟩
    ∧ 9 ≤ turn_done ⟨2, 3, some 9⟩
    ∧ turn_done ⟨2, 3, some 9⟩ = max (playback_done ⟨2, 3, some 9⟩) 9 :=
  C7_acting_join ⟨2, 3, some 9⟩ 9 rfl

/-- C10: any movement name whose normalized form (lowercased, spaces to
underscores) is not a key of the fixed movement table makes
`execute_movement` return `False` with the hardware (`ExecuteAction`) never
contacted. -/
theorem C10_unknown_movement (hw : List Char → Bool) (name : List Char)
    (h : ∀ e ∈ movement_map, e.1 ≠ normalize_movement name) :
    execute_movement hw name = (false, false) := by
  unfold execute_movement
  rw [List.find?_eq_none.mpr]
  intro e he
  simp only [decide_eq_true_eq]
  exact h e he

/-- C10, witnessed at the unknown name `"Fly"`. -/
theorem C10_unknown_movement_witness :
    execute_movement (fun _ => true) ("Fly".toList) = (false, false) :=
  C10_unknown_movement (fun _ => true) ("Fly".toList) (by decide)

lemma pyStrip_all_ws (s : List Char) (h : ∀ c ∈ s, pyWS c = true) :
    pyStrip s = [] := by
  unfold pyStrip
  rw [List.dropWhile_eq_nil_iff.mpr h]
  simp

/-- C8 counterexample: for the whitespace-only transcript `" "` with
contextual prompts configured, the gpt-4o `chat.completions.create` call IS
made (the truthiness check at line 214 happens before the strip), refuting
"no reasoning-service call is made for it" — though nothing propagates
downstream. -/
theorem C8_claim_cex :
    (transcribe_audio true (some [' '])).2 = true
    ∧ transcript_propagates true (some [' ']) = false :=
  ⟨rfl, rfl⟩

/-- C8 (amended): an empty or whitespace-only raw transcript never
propagates downstream (the caller's `if transcript:` filter rejects the
stripped text), but the contextual reasoning call inside `transcribe_audio`
is still made exactly when prompts are configured and the raw transcript is
truthy — a whitespace-only (non-empty) transcript does trigger it; only a
falsy raw transcript (`None` or `""`) short-circuits before the call. -/
theorem C8_amended_whitespace (prompts : Bool) (raw : Option (List Char))
    (h : ∀ s, raw = some s → ∀ c ∈ s, pyWS c = true) :
    transcript_propagates prompts raw = false
    ∧ ((transcribe_audio prompts raw).2 = true ↔
        prompts = true ∧ ∃ s, raw = some s ∧ s ≠ []) := by
  cases raw with
  | none => simp [transcript_propagates, transcribe_audio]
  | some s =>
    have hws := h s rfl
    by_cases hs : s.isEmpty = true
    · have hnil : s = [] := List.isEmpty_iff.mp hs
      subst hnil
      simp [transcript_propagates, transcribe_audio]
    · have hstrip : pyStrip s = [] := pyStrip_all_ws s hws
      constructor
      · simp [transcript_propagates, transcribe_audio, hs, hstrip]
      · simp only [transcribe_audio, hs, if_false, Bool.false_eq_true]
        constructor
        · intro hp
          exact ⟨hp, s, rfl, fun he => hs (by simp [he])⟩
        · intro hp
          exact hp.1

/-- C8 amended, witnessed at the whitespace transcript `" "` with prompts
configured: it does not propagate, and the contextual call is made. -/
theorem C8_amended_witness :
    transcript_propagates true (some [' ']) = false
    ∧ (transcribe_audio true (some [' '])).2 = true := by
  have h : ∀ s, (some [' '] : Option (List Char)) = some s → ∀ c ∈ s, pyWS c = true := by
    intro s hs
    injection hs with h1
    subst h1
    decide
  exact ⟨(C8_amended_whitespace true (some [' ']) h).1,
    (C8_amended_whitespace true (some [' ']) h).2.mpr ⟨rfl, [' '], rfl, by decide⟩⟩

lemma minByDist_spec (p : Nat) :
    ∀ (xs : List Nat) (x : Nat),
      (minByDist p x xs = x ∨ minByDist p x xs ∈ xs)
      ∧ rateDist p (minByDist p x xs) ≤ rateDist p x
      ∧ ∀ y ∈ xs, rateDist p (minByDist p x xs) ≤ rateDist p y := by
  intro xs
  induction xs with
  | nil => exact fun x => ⟨Or.inl rfl, le_refl _, by simp⟩
  | cons y ys ih =>
    intro x
    by_cases hc : rateDist p y < rateDist p x
    · obtain ⟨hmem, hle, hall⟩ := ih y
      have step : minByDist p x (y :: ys) = minByDist p y ys := by
        simp [minByDist, List.foldl_cons, if_pos hc]
      rw [step]
      refine ⟨?_, le_trans hle (le_of_lt hc), ?_⟩
      · rcases hmem with h1 | h1
        · refine Or.inr ?_
          rw [h1]
          exact List.mem_cons_self y ys
        · exact Or.inr (List.mem_cons_of_mem y h1)
      · intro z hz
        rcases List.mem_cons.mp hz with h1 | h1
        · exact h1 ▸ hle
        · exact hall z h1
    · obtain ⟨hmem, hle, hall⟩ := ih x
      have step : minByDist p x (y :: ys) = minByDist p x ys := by
        simp [minByDist, List.foldl_cons, if_neg hc]
      rw [step]
      refine ⟨?_, hle, ?_⟩
      · rcases hmem with h1 | h1
        · exact Or.inl h1
        · exact Or.inr (List.mem_cons_of_mem y h1)
      · intro z hz
        rcases List.mem_cons.mp hz with h1 | h1
        · exact h1 ▸ le_trans hle (le_of_not_lt hc)
        · exact hall z h1

/-- C9: when the preferred rate is unsupported, `record_audio` selects a
supported rate at minimum absolute distance to the preferred one (Python's
`min` with an `abs(x - preferred)` key); in particular, supported rates
`[8000, 16000, 44100]` with preferred `48000` select `44100`. -/
theorem C9_rate_selection :
    (∀ (supported : List Nat) (preferred r : Nat),
        select_rate supported preferred = some r →
        r ∈ supported ∧ ∀ y ∈ supported, rateDist preferred r ≤ rateDist preferred y)
    ∧ select_rate [8000, 16000, 44100] 48000 = some 44100 := by
  constructor
  · intro supported preferred r hsel
    unfold select_rate at hsel
    by_cases hmem : preferred ∈ supported
    · rw [if_pos hmem] at hsel
      have hr := Option.some.inj hsel
      subst hr
      refine ⟨hmem, fun y hy => ?_⟩
      have h0 : rateDist preferred preferred = 0 := by simp [rateDist]
      rw [h0]
      exact Nat.zero_le _
    · rw [if_neg hmem] at hsel
      cases supported with
      | nil => exact Option.noConfusion hsel
      | cons x xs =>
        have hr := Option.some.inj hsel
        subst hr
        obtain ⟨hm, hle, hall⟩ := minByDist_spec preferred xs x
        refine ⟨?_, ?_⟩
        · rcases hm with h1 | h1
          · rw [h1]
            exact List.mem_cons_self x xs
          · exact List.mem_cons_of_mem x h1
        · intro y hy
          rcases List.mem_cons.mp hy with h1 | h1
          · exact h1 ▸ hle
          · exact hall y h1
  · decide

/-- C9, witnessed: the selected rate 44100 is supported and no closer
supported rate to 48000 exists than it. -/
theorem C9_rate_selection_witness :
    44100 ∈ [8000, 16000, 44100]
    ∧ rateDist 48000 44100 ≤ rateDist 48000 16000 :=
  ⟨(C9_rate_selection.1 [8000, 16000, 44100] 48000 44100 C9_rate_selection.2).1,
   (C9_rate_selection.1 [8000, 16000, 44100] 48000 44100 C9_rate_selection.2).2
     16000 (by decide)⟩

/-! ### One-step unfoldings of the capture loop (no cancellation) -/

lemma recordGo_cons_speech (thr : Nat) (rest : List Bool) (idx : Nat)
    (buf : List Nat) (sil : Nat) :
    recordGo thr none (true :: rest) idx buf sil =
      recordGo thr none rest (idx + 1) (buf ++ [idx]) 0 := by
  simp [recordGo, flagObserved]

lemma recordGo_cons_silent_empty (thr : Nat) (rest : List Bool) (idx : Nat)
    (sil : Nat) :
    recordGo thr none (false :: rest) idx [] sil =
      recordGo thr none rest (idx + 1) [] sil := by
  simp [recordGo, flagObserved]

lemma recordGo_cons_silent_buf (thr : Nat) (rest : List Bool) (idx : Nat)
    (buf : List Nat) (sil : Nat) (hbuf : buf ≠ []) (hsil : ¬ sil + 1 > thr) :
    recordGo thr none (false :: rest) idx buf sil =
      recordGo thr none rest (idx + 1) (buf ++ [idx]) (sil + 1) := by
  simp [recordGo, flagObserved, hbuf, hsil]

lemma recordGo_cons_silent_break (thr : Nat) (rest : List Bool) (idx : Nat)
    (buf : List Nat) (sil : Nat) (hbuf : buf ≠ []) (hsil : sil + 1 > thr) :
    recordGo thr none (false :: rest) idx buf sil =
      (buf ++ [idx], idx + 1, RecEnd.silenceEnd) := by
  simp [recordGo, flagObserved, hbuf, hsil]

/-- A run of `k` speech frames is buffered whole (as the contiguous index
range starting at `idx`) and resets the silence counter. -/
lemma recordGo_speech_run (thr : Nat) (rest : List Bool) :
    ∀ (k idx : Nat) (buf : List Nat),
      recordGo thr none (List.replicate k true ++ rest) idx buf 0 =
        recordGo thr none rest (idx + k) (buf ++ List.range' idx k) 0 := by
  intro k
  induction k with
  | zero => intro idx buf; simp
  | succ k ih =>
    intro idx buf
    rw [List.replicate_succ, List.cons_append, recordGo_cons_speech,
        ih (idx + 1) (buf ++ [idx])]
    have e1 : idx + 1 + k = idx + (k + 1) := by omega
    have e2 : (buf ++ [idx]) ++ List.range' (idx + 1) k = buf ++ List.range' idx (k + 1) := by
      rw [List.range'_succ, List.append_assoc, List.singleton_append]
    rw [e1, e2]

/-- After speech has started (`buf ≠ []`), a run of `m = thr + 1 - s`
non-speech frames is buffered and ends the loop by exceeding the silence
threshold. -/
lemma recordGo_silence_run (thr : Nat) (rest : List Bool) :
    ∀ (m : Nat), 1 ≤ m → ∀ (s idx : Nat) (buf : List Nat),
      s + m = thr + 1 → buf ≠ [] →
      recordGo thr none (List.replicate m false ++ rest) idx buf s =
        (buf ++ List.range' idx m, idx + m, RecEnd.silenceEnd) := by
  intro m
  induction m with
  | zero => intro h; exact absurd h (by omega)
  | succ m ih =>
    intro _ s idx buf hsum hbuf
    rw [List.replicate_succ, List.cons_append]
    by_cases hm : m = 0
    · subst hm
      rw [recordGo_cons_silent_break thr _ idx buf s hbuf (by omega)]
      rw [List.range'_one]
    · have h1m : 1 ≤ m := by omega
      rw [recordGo_cons_silent_buf thr _ idx buf s hbuf (by omega)]
      rw [ih h1m (s + 1) (idx + 1) (buf ++ [idx]) (by omega) (by simp)]
      have e1 : idx + 1 + m = idx + (m + 1) := by omega
      have e2 : (buf ++ [idx]) ++ List.range' (idx + 1) m = buf ++ List.range' idx (m + 1) := by
        rw [List.range'_succ, List.append_assoc, List.singleton_append]
      rw [e1, e2]

/-- Leading non-speech frames are read but never buffered. -/
lemma recordGo_skip_silence (thr : Nat) (rest : List Bool) :
    ∀ (m idx sil : Nat),
      recordGo thr none (List.replicate m false ++ rest) idx [] sil =
        recordGo thr none rest (idx + m) [] sil := by
  intro m
  induction m with
  | zero => intro idx sil; simp
  | succ m ih =>
    intro idx sil
    rw [List.replicate_succ, List.cons_append, recordGo_cons_silent_empty, ih]
    have e1 : idx + 1 + m = idx + (m + 1) := by omega
    rw [e1]

/-- Every frame index in the final buffer either was already buffered or was
read at or after the current position. -/
lemma recordGo_buf_mem (thr : Nat) (c : Option Nat) :
    ∀ (input : List Bool) (idx : Nat) (buf : List Nat) (sil : Nat),
      ∀ i ∈ (recordGo thr c input idx buf sil).1, i ∈ buf ∨ idx ≤ i := by
  intro input
  induction input with
  | nil => intro idx buf sil i hi; exact Or.inl hi
  | cons sp rest ih =>
    intro idx buf sil i hi
    simp only [recordGo] at hi
    by_cases h1 : flagObserved c idx = true
    · rw [if_pos h1] at hi; exact Or.inl hi
    · rw [if_neg h1] at hi
      by_cases h2 : flagObserved c (idx + 1) = true
      · rw [if_pos h2] at hi; exact Or.inl hi
      · rw [if_neg h2] at hi
        by_cases h3 : sp = true
        · rw [if_pos h3] at hi
          rcases ih (idx + 1) (buf ++ [idx]) 0 i hi with hm | hge
          · rcases List.mem_append.mp hm with hb | hs
            · exact Or.inl hb
            · right; simp at hs; omega
          · right; omega
        · rw [if_neg h3] at hi
          by_cases h4 : buf.isEmpty = true
          · rw [if_pos h4] at hi
            rcases ih (idx + 1) buf sil i hi with hm | hge
            · exact Or.inl hm
            · right; omega
          · rw [if_neg h4] at hi
            by_cases h5 : sil + 1 > thr
            · rw [if_pos h5] at hi
              rcases List.mem_append.mp hi with hb | hs
              · exact Or.inl hb
              · right; simp at hs; omega
            · rw [if_neg h5] at hi
              rcases ih (idx + 1) (buf ++ [idx]) (sil + 1) i hi with hm | hge
              · rcases List.mem_append.mp hm with hb | hs
                · exact Or.inl hb
                · right; simp at hs; omega
              · right; omega

/-- A loop that ends `cancelled` ended at a check point where the flag was
observed. -/
lemma recordGo_cancelled_flag (thr : Nat) (c : Option Nat) :
    ∀ (input : List Bool) (idx : Nat) (buf : List Nat) (sil : Nat),
      (recordGo thr c input idx buf sil).2.2 = RecEnd.cancelled →
      flagObserved c (recordGo thr c input idx buf sil).2.1 = true := by
  intro input
  induction input with
  | nil => intro idx buf sil h; exact absurd h (by simp [recordGo])
  | cons sp rest ih =>
    intro idx buf sil h
    simp only [recordGo] at h ⊢
    by_cases h1 : flagObserved c idx = true
    · rw [if_pos h1] at h ⊢; exact h1
    · rw [if_neg h1] at h ⊢
      by_cases h2 : flagObserved c (idx + 1) = true
      · rw [if_pos h2] at h ⊢; exact h2
      · rw [if_neg h2] at h ⊢
        by_cases h3 : sp = true
        · rw [if_pos h3] at h ⊢; exact ih _ _ _ h
        · rw [if_neg h3] at h ⊢
          by_cases h4 : buf.isEmpty = true
          · rw [if_pos h4] at h ⊢; exact ih _ _ _ h
          · rw [if_neg h4] at h ⊢
            by_cases h5 : sil + 1 > thr
            · rw [if_pos h5] at h ⊢
              exact absurd h (by simp)
            · rw [if_neg h5] at h ⊢; exact ih _ _ _ h

/-- A loop cancelled by a flag set when `j` reads had completed reads at
most `j` frames in total: at most one read happens after the flag is set. -/
lemma recordGo_cancelled_reads_le (thr j : Nat) :
    ∀ (input : List Bool) (idx : Nat) (buf : List Nat) (sil : Nat),
      idx ≤ j →
      (recordGo thr (some j) input idx buf sil).2.2 = RecEnd.cancelled →
      (recordGo thr (some j) input idx buf sil).2.1 ≤ j := by
  intro input
  induction input with
  | nil => intro idx buf sil hle h; exact absurd h (by simp [recordGo])
  | cons sp rest ih =>
    intro idx buf sil hle h
    simp only [recordGo] at h ⊢
    by_cases h1 : flagObserved (some j) idx = true
    · rw [if_pos h1] at h ⊢; exact hle
    · rw [if_neg h1] at h ⊢
      have h1' : ¬ j ≤ idx := fun hc => h1 (by simp [flagObserved, hc])
      by_cases h2 : flagObserved (some j) (idx + 1) = true
      · rw [if_pos h2] at h ⊢
        have h2n := of_decide_eq_true h2
        show idx + 1 ≤ j
        omega
      · rw [if_neg h2] at h ⊢
        have h2' : ¬ j ≤ idx + 1 := fun hc => h2 (by simp [flagObserved, hc])
        have hle' : idx + 1 ≤ j := by omega
        by_cases h3 : sp = true
        · rw [if_pos h3] at h ⊢; exact ih _ _ _ hle' h
        · rw [if_neg h3] at h ⊢
          by_cases h4 : buf.isEmpty = true
          · rw [if_pos h4] at h ⊢; exact ih _ _ _ hle' h
          · rw [if_neg h4] at h ⊢
            by_cases h5 : sil + 1 > thr
            · rw [if_pos h5] at h ⊢
              exact absurd h (by simp)
            · rw [if_neg h5] at h ⊢; exact ih _ _ _ hle' h

/-- C2 counterexample: with one speech frame already buffered, cancellation
(flag set during the second read) ends the loop as `cancelled`, yet
`record_audio` of chatgpt_asr.py RETURNS the partial buffer (`some [0]`) as
audio instead of discarding it and reporting a distinct Cancelled outcome. -/
theorem C2_claim_cex :
    (record_audio_chatgpt 100 (some 2) [true, true]).2.2 = RecEnd.cancelled
    ∧ (record_audio_chatgpt 100 (some 2) [true, true]).1 = some [0] :=
  ⟨rfl, rfl⟩

/-- C2 (amended): once the cancellation flag set at read count `j` is
observed, the loop terminates within one frame read (total reads ≤ j, so no
complete read follows the set); the googleasr.py `record_audio` then
discards the partial buffer and returns no audio, but the chatgpt_asr.py
variant returns the partially buffered frames as audio whenever the buffer
is non-empty — only an empty buffer yields `(None, None)`, which is
indistinguishable from the no-speech outcome. -/
theorem C2_amended_cancel (thr j : Nat) (input : List Bool)
    (h : (recordGo thr (some j) input 0 [] 0).2.2 = RecEnd.cancelled) :
    (recordGo thr (some j) input 0 [] 0).2.1 ≤ j
    ∧ (record_audio_google thr (some j) input).1 = none
    ∧ (record_audio_chatgpt thr (some j) input).1 =
        (if (recordGo thr (some j) input 0 [] 0).1.isEmpty then none
         else some ((recordGo thr (some j) input 0 [] 0).1)) := by
  refine ⟨recordGo_cancelled_reads_le thr j input 0 [] 0 (Nat.zero_le j) h, ?_, ?_⟩
  · have hf := recordGo_cancelled_flag thr (some j) input 0 [] 0 h
    unfold record_audio_google
    rcases heq : recordGo thr (some j) input 0 [] 0 with ⟨buf, n, e⟩
    rw [heq] at hf
    simp only at hf
    simp [hf]
  · unfold record_audio_chatgpt
    rcases heq : recordGo thr (some j) input 0 [] 0 with ⟨buf, n, e⟩
    rfl

/-- C2 amended, witnessed at the cancellation-after-speech run. -/
theorem C2_amended_witness :
    (recordGo 100 (some 2) [true, true] 0 [] 0).2.1 ≤ 2
    ∧ (record_audio_google 100 (some 2) [true, true]).1 = none
    ∧ (record_audio_chatgpt 100 (some 2) [true, true]).1 =
        (if (recordGo 100 (some 2) [true, true] 0 [] 0).1.isEmpty then none
         else some ((recordGo 100 (some 2) [true, true] 0 [] 0).1)) :=
  C2_amended_cancel 100 2 [true, true] rfl

/-- C4: `N ≥ 1` speech frames followed by `thr + 1` non-speech frames make
`record_audio` return the utterance consisting of exactly the first
`N + thr + 1` frames (indices `0 … N + thr`), after exactly `N + thr + 1`
reads — whatever frames remain in the stream (`rest`) are never read — with
the loop ended by the silence threshold. -/
theorem C4_utterance_frames (N thr : Nat) (rest : List Bool) (h : 1 ≤ N) :
    record_audio_chatgpt thr none
        (List.replicate N true ++ (List.replicate (thr + 1) false ++ rest))
      = (some (List.range' 0 (N + (thr + 1))), N + (thr + 1), RecEnd.silenceEnd)
    ∧ (List.range' 0 (N + (thr + 1))).length = N + (thr + 1) := by
  have hne : List.range' 0 N ≠ [] := by
    intro he
    have := List.length_range' 0 1 N
    rw [he] at this
    simp at this
    omega
  have hrun :
      recordGo thr none
          (List.replicate N true ++ (List.replicate (thr + 1) false ++ rest)) 0 [] 0
        = (List.range' 0 N ++ List.range' N (thr + 1), N + (thr + 1), RecEnd.silenceEnd) := by
    rw [recordGo_speech_run thr (List.replicate (thr + 1) false ++ rest) N 0 []]
    simp only [List.nil_append, Nat.zero_add]
    exact recordGo_silence_run thr rest (thr + 1) (by omega) 0 N (List.range' 0 N)
      (by omega) hne
  have hglue : List.range' 0 N ++ List.range' N (thr + 1) = List.range' 0 (N + (thr + 1)) := by
    have := List.range'_append 0 N (thr + 1) 1
    simpa [Nat.add_comm] using this
  have hne2 : List.range' 0 (N + (thr + 1)) ≠ [] := by
    intro he
    have hl := List.length_range' 0 1 (N + (thr + 1))
    rw [he] at hl
    simp at hl
    omega
  constructor
  · unfold record_audio_chatgpt
    rw [hrun, hglue]
    have hemp : (List.range' 0 (N + (thr + 1))).isEmpty = false := by
      cases hb : (List.range' 0 (N + (thr + 1))).isEmpty
      · rfl
      · exact absurd (List.isEmpty_iff.mp hb) hne2
    simp [hemp]
  · exact List.length_range' 0 1 (N + (thr + 1))

/-- C4, witnessed at `N = 1`, threshold 2, with an unread trailing frame. -/
theorem C4_utterance_frames_witness :
    record_audio_chatgpt 2 none [true, false, false, false, true]
      = (some (List.range' 0 4), 4, RecEnd.silenceEnd)
    ∧ (List.range' 0 4).length = 4 := by
  have h := C4_utterance_frames 1 2 [true] (by decide)
  exact h

/-- C5: an all-non-speech frame stream buffers nothing — `record_audio`
returns no audio after reading the whole stream, the no-speech outcome the
caller retries on — and in general no frame read before the first
speech-classified frame is ever buffered: every frame index in the final
utterance lies at or after the end of any leading non-speech prefix. -/
theorem C5_leading_silence (thr : Nat) (input : List Bool) :
    (input.all (fun b => !b) = true →
      record_audio_chatgpt thr none input = (none, input.length, RecEnd.streamEnd))
    ∧ (∀ (m : Nat) (rest : List Bool), input = List.replicate m false ++ rest →
        ∀ i ∈ (recordGo thr none input 0 [] 0).1, m ≤ i) := by
  constructor
  · intro hall
    have hmem : ∀ b ∈ input, b = false := by
      intro b hb
      have hb' := List.all_eq_true.mp hall b hb
      simpa using hb'
    have hrep := List.eq_replicate_of_mem hmem
    have hsil : record_audio_chatgpt thr none (List.replicate input.length false)
        = (none, input.length, RecEnd.streamEnd) := by
      unfold record_audio_chatgpt
      have hskip := recordGo_skip_silence thr [] input.length 0 0
      rw [List.append_nil] at hskip
      rw [hskip]
      simp [recordGo]
    rw [← hrep] at hsil
    exact hsil
  · intro m rest hin i hi
    subst hin
    rw [recordGo_skip_silence thr rest m 0 0] at hi
    rcases recordGo_buf_mem thr none rest (0 + m) [] 0 i hi with hm | hge
    · exact absurd hm (List.not_mem_nil i)
    · omega

/-- C5, witnessed: two non-speech frames yield the no-speech outcome, and
after a one-frame non-speech prefix the single buffered frame has index
`1 ≥ 1`. -/
theorem C5_leading_silence_witness :
    record_audio_chatgpt 3 none [false, false] = (none, 2, RecEnd.streamEnd)
    ∧ 1 ≤ 1 :=
  ⟨(C5_leading_silence 3 [false, false]).1 (by decide),
   (C5_leading_silence 3 [false, true]).2 1 [true] (by decide) 1 (by decide)⟩

/-- The code's threshold `int(silence_limit * (sample_rate / 160))` at
`silence_limit = 1.0` is the integer `sample_rate / 160` (exact under float
semantics for every value below, all binary-representable). -/
lemma silence_threshold_one_eq (r : Nat) :
    silence_threshold 1 r = ((r / 160 : Nat) : ℤ) := by
  unfold silence_threshold pyInt
  rw [if_pos (by positivity), one_mul]
  exact_mod_cast Rat.floor_natCast_div_natCast r 160

set_option maxRecDepth 4000 in
/-- C3 counterexample: at the negotiated rate 44100 the code's silence
threshold is 275 frames, not `silenceLimitSeconds / 0.01 = 100`, and a
recording of one speech frame followed by 101 non-speech frames (a run
exceeding 100) does NOT stop at the claimed threshold — the loop runs the
stream dry instead of ending by silence. -/
theorem C3_claim_cex :
    silence_threshold 1 44100 = 275
    ∧ (275 : ℤ) ≠ 100
    ∧ (recordGo (silence_threshold 1 44100).toNat none
        (true :: List.replicate 101 false) 0 [] 0).2.2 = RecEnd.streamEnd := by
  have h44 : silence_threshold 1 44100 = 275 := by
    rw [silence_threshold_one_eq]
    decide
  refine ⟨h44, by decide, ?_⟩
  rw [h44]
  decide

/-- C3 (amended): after speech has started, recording stops when the run of
consecutive non-speech frames exceeds `int(silence_limit * sampleRate/160)`
`= ⌊sampleRate/160⌋` frames (for `silence_limit = 1`s) — a threshold that
DOES depend on the negotiated sample rate and equals the claimed
`silenceLimitSeconds / 0.01 = 100` only around 16000 Hz. -/
theorem C3_amended_threshold (r : Nat) :
    silence_threshold 1 r = ((r / 160 : Nat) : ℤ)
    ∧ silence_threshold 1 16000 = 100 :=
  ⟨silence_threshold_one_eq r, by rw [silence_threshold_one_eq]; decide⟩

end T031a5
